import Mathlib

/-!
Verification development for `libs/ardour/midi_source.cc` (class
`ARDOUR::MidiSource`).  The C++ source is shallowly embedded below:
machine integers become `Nat`, `std::map` becomes a partial function,
external collaborators (the event-type map, the storage backend, the
channel filter, the loop range) become explicit function parameters,
and each member function becomes a pure Lean function on the relevant
slice of the object state.
-/

namespace ArdourMidi

/-- Evoral automation/event type of a MIDI parameter: the cases named by
the switch in `MidiSource::set_state` plus a catch-all constructor for
every other type (the switch's `default`). -/
inductive AutomationType
  | midiCC
  | midiPgmChange
  | midiChannelPressure
  | midiNotePressure
  | midiPitchBender
  | midiSystemExclusive
  | otherAutomation
deriving DecidableEq

/-- `AutomationList::InterpolationStyle` (from evoral's `ControlList`). -/
inductive InterpolationStyle
  | Discrete
  | Linear
  | Curved
  | Logarithmic
  | Exponential
deriving DecidableEq

/-- `ARDOUR::AutoState`. -/
inductive AutoState
  | Off
  | Play
  | Write
  | Touch
  | Latch
deriving DecidableEq

/-- `Evoral::Parameter`: a typed automation target. -/
structure Parameter where
  ptype : AutomationType
  channel : Nat
  id : Nat
deriving DecidableEq

/-- A `std::map<Evoral::Parameter, V>` modelled as a partial function. -/
def PMap (V : Type) := Parameter → Option V

/-- `map.erase (p)`. -/
def PMap.erase {V : Type} (m : PMap V) (p : Parameter) : PMap V :=
  fun q => if q = p then none else m q

/-- `map[p] = v` (`operator[]` assignment: inserts or overwrites). -/
def PMap.store {V : Type} (m : PMap V) (p : Parameter) (v : V) : PMap V :=
  fun q => if q = p then some v else m q

/-- `map.insert (make_pair (p, v))` (keeps an existing entry for `p`). -/
def PMap.insertKeep {V : Type} (m : PMap V) (p : Parameter) (v : V) : PMap V :=
  fun q => if q = p then some ((m p).getD v) else m q

/-- `MidiSource::InterpolationStyleMap` (`_interpolation_style`). -/
abbrev InterpMap := PMap InterpolationStyle

/-- `MidiSource::AutomationStateMap` (`_automation_state`). -/
abbrev AutoMap := PMap AutoState

/-- External collaborators consulted by `MidiSource`:
`EventTypeMap::instance()` (per-type default interpolation and symbol
resolution) and the PBD string-to-enum conversions used by
`XMLNode::get_property`.  They live outside `midi_source.cc`, so they
are abstract parameters of the embedding. -/
structure ETM where
  default_interpolation_of : Parameter → InterpolationStyle
  from_symbol : String → Parameter
  parse_interpolation : String → Option InterpolationStyle
  parse_auto_state : String → Option AutoState

/-- `MidiSource::interpolation_of`: stored override, else the
`EventTypeMap` default for the parameter. -/
def interpolation_of (etm : ETM) (m : InterpMap) (p : Parameter) : InterpolationStyle :=
  match m p with
  | none => etm.default_interpolation_of p
  | some s => s

/-- `MidiSource::automation_state_of`: stored override, else `Play`. -/
def automation_state_of (a : AutoMap) (p : Parameter) : AutoState :=
  match a p with
  | none => AutoState.Play
  | some s => s

/-- `MidiSource::set_interpolation_of`, returning the updated map and
the `InterpolationChanged` notification payload (`none` when the call
is a no-op and no signal is emitted). -/
def set_interpolation_of (etm : ETM) (m : InterpMap) (p : Parameter)
    (s : InterpolationStyle) : InterpMap × Option (Parameter × InterpolationStyle) :=
  if interpolation_of etm m p = s then
    (m, none)
  else if etm.default_interpolation_of p = s then
    (m.erase p, some (p, s))
  else
    (m.store p s, some (p, s))

/-- `MidiSource::set_automation_state_of`, returning the updated map and
the `AutomationStateChanged` notification payload. -/
def set_automation_state_of (a : AutoMap) (p : Parameter)
    (s : AutoState) : AutoMap × Option (Parameter × AutoState) :=
  if automation_state_of a p = s then
    (a, none)
  else if s = AutoState.Play then
    (a.erase p, some (p, s))
  else
    (a.store p s, some (p, s))

/-- The `_interpolation_style` effect of
`MidiSource::mark_midi_streaming_write_completed`: for every control
list touched during the write, `_interpolation_style.insert
(make_pair (parameter, Discrete))`. -/
def mark_completed_interp (m : InterpMap) (touched : List Parameter) : InterpMap :=
  touched.foldl (fun acc p => acc.insertKeep p InterpolationStyle.Discrete) m

/-- The slice of `MidiSource` state touched by the metadata store and
by `set_state`: the two override maps and `_captured_for`. -/
structure MetaState where
  interp : InterpMap
  auto : AutoMap
  captured_for : String

/-- The public operations that touch the override maps. -/
inductive MetaOp
  | setInterp (p : Parameter) (s : InterpolationStyle)
  | setAuto (p : Parameter) (s : AutoState)
  | writeCompleted (touched : List Parameter)
deriving DecidableEq

/-- Whether a `MetaOp` is one of the two single-parameter setters. -/
def MetaOp.isSetter : MetaOp → Bool
  | .setInterp _ _ => true
  | .setAuto _ _ => true
  | .writeCompleted _ => false

/-- One public operation applied to the metadata state. -/
def metaStep (etm : ETM) (st : MetaState) : MetaOp → MetaState
  | .setInterp p s => { st with interp := (set_interpolation_of etm st.interp p s).1 }
  | .setAuto p s => { st with auto := (set_automation_state_of st.auto p s).1 }
  | .writeCompleted ts => { st with interp := mark_completed_interp st.interp ts }

/-- The metadata state of a freshly constructed `MidiSource` (both
override maps empty). -/
def initMeta : MetaState :=
  { interp := fun _ => none, auto := fun _ => none, captured_for := "" }

/-- Run a sequence of public metadata operations from the initial state. -/
def runMeta (etm : ETM) (ops : List MetaOp) : MetaState :=
  ops.foldl (metaStep etm) initMeta

/-! ### Write path: `MidiSource::midi_write` -/

/-- `timecnt_t::max (...)`: the largest representable distance (62-bit
magnitude), used by `midi_write` as the "unbounded" sentinel. -/
def timecnt_max : Nat := 2 ^ 62 - 1

/-- Observable outcome of one `MidiSource::midi_write` call: the value
returned to the caller, the new `_capture_length`, and whether
`invalidate` ran (which fires the `Invalidated` signal). -/
structure WriteOut where
  ret : Nat
  capture_length : Nat
  invalidated : Bool
deriving DecidableEq

/-- `MidiSource::midi_write`.  `write_unlocked` is the storage backend
(pure virtual, implemented outside this file's source), modelled as an
arbitrary function from the requested count to the transferred count. -/
def midi_write (write_unlocked : Nat → Nat) (capture_length cnt : Nat) : WriteOut :=
  let ret := write_unlocked cnt
  if cnt = timecnt_max then
    { ret := ret, capture_length := capture_length, invalidated := true }
  else
    { ret := ret, capture_length := capture_length + cnt, invalidated := false }

/-! ### Read path: `MidiSource::midi_read` (modeled branch) -/

/-- One event of the model sequence: beat time, evoral event type, and
raw MIDI bytes. -/
structure MEvent where
  time : Nat
  etype : Nat
  buffer : List Nat
deriving DecidableEq

/-- `MidiChannelFilter::filter (buf, size)`, modelled as a function
returning (rejected?, mutated bytes): the C++ call mutates the buffer
in place and returns `true` when the event is to be filtered out. -/
def ChannelFilter : Type := List Nat → Bool × List Nat

/-- `const bool is_channel_event = (0x80 <= (status & 0xF0)) && (status <= 0xE0);`
(line 270 of `midi_source.cc`). -/
def is_channel_event (status : Nat) : Bool :=
  decide (0x80 ≤ Nat.land status 0xF0) && decide (status ≤ 0xE0)

/-- Per-event emission decision of the read loop (lines 272-287): with
a filter present, a channel event is cloned, mutated by the filter and
emitted only if not rejected; every other event is emitted as is. -/
def emit_event (filter : Option ChannelFilter) (ev : MEvent) : Option MEvent :=
  match filter with
  | some f =>
    if is_channel_event (ev.buffer.headD 0) then
      let fr := f ev.buffer
      if fr.1 then none else some { ev with buffer := fr.2 }
    else
      some ev
  | none => some ev

/-- One `dst.write (time_samples, type, size, buffer)` call recorded
from the sink's point of view. -/
structure SinkWrite where
  time_samples : Nat
  etype : Nat
  buffer : List Nat
deriving DecidableEq

/-- Session-beat to sample mapping of an emitted event (lines 262-267):
`seb.samples ()`, overridden by `loop_range->squish (seb).samples ()`
when a loop range is present.  Both conversions are external, so each
is an abstract function. -/
def event_time_samples (toSamples : Nat → Nat) (loopSquish : Option (Nat → Nat))
    (seb : Nat) : Nat :=
  match loopSquish with
  | some f => f seb
  | none => toSamples seb

/-- The `for (; i != _model->end (); ++i)` loop of `midi_read` (lines
242-309), acting on the events from the iterator position onward.
`i` is the iterator's index into the model, `lo` the session start of
the window and `hi` its session end; too-early events are skipped,
the first event at or past `hi` stops the scan leaving the iterator
on it, in-window events go through `emit_event`. -/
def read_loop (toSamples : Nat → Nat) (loopSquish : Option (Nat → Nat))
    (filter : Option ChannelFilter) (source_start lo hi : Nat) :
    List MEvent → Nat → Nat × List SinkWrite
  | [], i => (i, [])
  | ev :: rest, i =>
    let seb := source_start + ev.time
    if seb < lo then
      read_loop toSamples loopSquish filter source_start lo hi rest (i + 1)
    else if hi ≤ seb then
      (i, [])
    else
      let t := event_time_samples toSamples loopSquish seb
      let r := read_loop toSamples loopSquish filter source_start lo hi rest (i + 1)
      match emit_event filter ev with
      | some ev2 => (r.1, { time_samples := t, etype := ev2.etype, buffer := ev2.buffer } :: r.2)
      | none => (r.1, r.2)

/-- `MidiCursor`: per-consumer read state.  The cached model iterator
is modelled by its index into the event list plus a validity flag. -/
structure Cursor where
  last_read_end : Nat
  iter_valid : Bool
  iter : Nat
  active_notes : List Nat
deriving DecidableEq

/-- `_model->begin (start, ...)`: index of the first event whose time
is at or after `start`. -/
def first_at_or_after : List MEvent → Nat → Nat
  | [], _ => 0
  | ev :: rest, t => if t ≤ ev.time then 0 else first_at_or_after rest t + 1

/-- Observable outcome of one modeled `MidiSource::midi_read` call.
`scan_start` instruments the index the scan actually started from and
`fresh_search` whether the cached iterator was discarded. -/
structure ReadOut where
  cursor : Cursor
  fresh_search : Bool
  scan_start : Nat
  written : List SinkWrite
  ret : Nat
deriving DecidableEq

/-- `MidiSource::midi_read`, modeled branch (`_model` attached; lines
213-313).  The linear-continuation test, the fresh search with its
active-note reset, the unconditional `last_read_end` update and the
event-copy loop are embedded; the sink is the returned `written` list. -/
def midi_read (toSamples : Nat → Nat) (loopSquish : Option (Nat → Nat))
    (filter : Option ChannelFilter) (model : List MEvent)
    (source_start start cnt : Nat) (cursor : Cursor) : ReadOut :=
  let linear_read : Bool := (cursor.last_read_end != 0) && (start == cursor.last_read_end)
  let fresh : Bool := !linear_read || !cursor.iter_valid
  let i0 := if fresh then first_at_or_after model start else cursor.iter
  let notes0 := if fresh then ([] : List Nat) else cursor.active_notes
  let lo := source_start + start
  let hi := source_start + start + cnt
  let res := read_loop toSamples loopSquish filter source_start lo hi (model.drop i0) i0
  { cursor :=
      { last_read_end := start + cnt
        iter_valid := decide (res.1 < model.length)
        iter := res.1
        active_notes := notes0 }
    fresh_search := fresh
    scan_start := i0
    written := res.2
    ret := cnt }

/-! ### Clone path: `MidiSource::write_to` -/

/-- `std::numeric_limits<Temporal::Beats>::max ()` (62-bit tick
magnitude), the "whole source" upper bound of `write_to`. -/
def beats_max : Nat := 2 ^ 62 - 1

/-- The calls `write_to` makes on the target source and on the model,
in order. -/
inductive WAct
  | setNaturalPosition (pos : Nat)
  | copyInterpolationFrom
  | copyAutomationStateFrom
  | writeModel
  | writeSectionTo (b e : Nat)
  | flushMidi
  | loadModelForce
  | destroyModel
  | loadModel
  | preventDeletion
deriving DecidableEq

/-- The target source's state as far as `write_to` mutates it, plus the
ordered log of the calls performed on it. -/
structure Target where
  natural_position : Option Nat
  interp : InterpMap
  auto : AutoMap
  acts : List WAct

/-- `MidiSource::write_to` (lines 420-457): unconditionally set the
target's natural position and replace both of its override maps with
copies of this source's maps (`copy_interpolation_from` /
`copy_automation_state_from` are whole-map assignments, lines 580-594);
then, if a model is attached, write the whole model (full range) or the
section, flush the target, reload its model (destroy + load for the
full range, forced load for a partial one) and prevent deletion;
without a model, fail with -1 after the initial mutations. -/
def write_to (src_interp : InterpMap) (src_auto : AutoMap) (src_pos : Nat)
    (hasModel : Bool) (b e : Nat) (tgt : Target) : Int × Target :=
  let t1 : Target :=
    { natural_position := some src_pos
      interp := src_interp
      auto := src_auto
      acts := tgt.acts ++ [WAct.setNaturalPosition src_pos,
                           WAct.copyInterpolationFrom, WAct.copyAutomationStateFrom] }
  if hasModel then
    let t2 :=
      if b = 0 ∧ e = beats_max then { t1 with acts := t1.acts ++ [WAct.writeModel] }
      else { t1 with acts := t1.acts ++ [WAct.writeSectionTo b e] }
    let t3 := { t2 with acts := t2.acts ++ [WAct.flushMidi] }
    let t4 :=
      if b ≠ 0 ∨ e ≠ beats_max then { t3 with acts := t3.acts ++ [WAct.loadModelForce] }
      else { t3 with acts := t3.acts ++ [WAct.destroyModel, WAct.loadModel] }
    (0, { t4 with acts := t4.acts ++ [WAct.preventDeletion] })
  else
    (-1, t1)

/-! ### Deserialization: `MidiSource::set_state` -/

/-- The kind of a serialized child node, by its element name. -/
inductive ChildKind
  | interpolationStyle
  | automationState
  | otherChild
deriving DecidableEq

/-- One serialized child entry: its element name, its `parameter`
property and its `style`/`state` property, each possibly absent. -/
structure XChild where
  kind : ChildKind
  parameter : Option String
  value : Option String
deriving DecidableEq

/-- The root state node as far as `set_state` reads it. -/
structure XNode where
  captured_for : Option String
  children : List XChild

/-- The switch on `p.type ()` in the `InterpolationStyle` branch of
`set_state` (lines 130-142): the five automatable MIDI types proceed;
system-exclusive and every other type are logged and skipped. -/
def automatable_midi_type : AutomationType → Bool
  | .midiCC => true
  | .midiPgmChange => true
  | .midiChannelPressure => true
  | .midiNotePressure => true
  | .midiPitchBender => true
  | .midiSystemExclusive => false
  | .otherAutomation => false

/-- The backward-compatibility toggle of `set_state` (line 147): an
empty style string means "the opposite of the type default"
(`interpolation_of (p) == Discrete ? Linear : Discrete`). -/
def toggled (etm : ETM) (p : Parameter) : InterpolationStyle :=
  if etm.default_interpolation_of p = InterpolationStyle.Discrete
  then InterpolationStyle.Linear else InterpolationStyle.Discrete

/-- The child loop of `MidiSource::set_state` (lines 121-180).
Returns the status (`0` or `-1`) and the resulting metadata state;
a failing child aborts immediately with `-1`. -/
def set_state_children (etm : ETM) : List XChild → MetaState → Int × MetaState
  | [], st => (0, st)
  | c :: rest, st =>
    match c.kind with
    | .otherChild => set_state_children etm rest st
    | .interpolationStyle =>
      match c.parameter with
      | none => (-1, st)
      | some sym =>
        let p := etm.from_symbol sym
        if automatable_midi_type p.ptype then
          match c.value with
          | some v =>
            if v = "" then
              set_state_children etm rest
                { st with interp := (set_interpolation_of etm st.interp p (toggled etm p)).1 }
            else
              match etm.parse_interpolation v with
              | none => (-1, st)
              | some s =>
                set_state_children etm rest
                  { st with interp := (set_interpolation_of etm st.interp p s).1 }
          | none => (-1, st)
        else
          set_state_children etm rest st
    | .automationState =>
      match c.parameter with
      | none => (-1, st)
      | some sym =>
        let p := etm.from_symbol sym
        match c.value with
        | some v =>
          if v = "" then
            set_state_children etm rest
              { st with auto := (set_automation_state_of st.auto p AutoState.Off).1 }
          else
            match etm.parse_auto_state v with
            | none => (-1, st)
            | some s =>
              set_state_children etm rest
                { st with auto := (set_automation_state_of st.auto p s).1 }
        | none => (-1, st)

/-- `MidiSource::set_state` (lines 115-183): restore `_captured_for`
when present, then process the children. -/
def set_state (etm : ETM) (node : XNode) (st : MetaState) : Int × MetaState :=
  let st1 := match node.captured_for with
             | some s => { st with captured_for := s }
             | none => st
  set_state_children etm node.children st1

/-- Claim C9's per-child "missing required field" predicate, read off
the claim's own words: the parameter symbol is required, and the
style/state value is required whenever no value is readable (absent,
or present but not parseable as the enumeration after the non-empty
legacy check). -/
def claim_missing_required (etm : ETM) (c : XChild) : Bool :=
  match c.kind with
  | .otherChild => false
  | .interpolationStyle =>
    match c.parameter with
    | none => true
    | some _ =>
      match c.value with
      | none => true
      | some v => if v = "" then false else (etm.parse_interpolation v).isNone
  | .automationState =>
    match c.parameter with
    | none => true
    | some _ =>
      match c.value with
      | none => true
      | some v => if v = "" then false else (etm.parse_auto_state v).isNone

/-- The amended form of claim C9's predicate: as `claim_missing_required`,
except that an `InterpolationStyle` child whose parameter resolves to a
non-automatable type is skipped before its style value is ever checked,
so nothing is required of it beyond the parameter symbol. -/
def amended_missing_required (etm : ETM) (c : XChild) : Bool :=
  match c.kind with
  | .otherChild => false
  | .interpolationStyle =>
    match c.parameter with
    | none => true
    | some sym =>
      if automatable_midi_type (etm.from_symbol sym).ptype then
        match c.value with
        | none => true
        | some v => if v = "" then false else (etm.parse_interpolation v).isNone
      else false
  | .automationState =>
    match c.parameter with
    | none => true
    | some _ =>
      match c.value with
      | none => true
      | some v => if v = "" then false else (etm.parse_auto_state v).isNone

/-! ### Invariants and read-window characterization -/

/-- The lazy-default invariant of `_interpolation_style`: no stored
entry equals the `EventTypeMap` default for its parameter. -/
def interp_inv (etm : ETM) (m : InterpMap) : Prop :=
  ∀ p, m p ≠ some (etm.default_interpolation_of p)

/-- The lazy-default invariant of `_automation_state`: no stored entry
equals the default state `Play`. -/
def auto_inv (a : AutoMap) : Prop :=
  ∀ p, a p ≠ some AutoState.Play

/-- Membership of an event in the requested read window
`[start, start + cnt)`, in beat time relative to the source. -/
def in_window (start cnt : Nat) (ev : MEvent) : Bool :=
  decide (start ≤ ev.time) && decide (ev.time < start + cnt)

/-- The sink write an in-window event produces, if any: the per-event
emission decision paired with the session-time-to-sample mapping. -/
def emitted_write (toSamples : Nat → Nat) (loopSquish : Option (Nat → Nat))
    (filter : Option ChannelFilter) (source_start : Nat) (ev : MEvent) : Option SinkWrite :=
  (emit_event filter ev).map fun ev2 =>
    { time_samples := event_time_samples toSamples loopSquish (source_start + ev.time)
      etype := ev2.etype
      buffer := ev2.buffer }

/-! ### Concrete fixtures used by witnesses and counterexamples -/

/-- A continuous-controller parameter (CC 7, channel 0). -/
def pCC : Parameter := { ptype := AutomationType.midiCC, channel := 0, id := 7 }

/-- A program-change parameter. -/
def pPgm : Parameter := { ptype := AutomationType.midiPgmChange, channel := 0, id := 0 }

/-- A system-exclusive parameter (explicitly non-automatable). -/
def pSys : Parameter := { ptype := AutomationType.midiSystemExclusive, channel := 0, id := 0 }

/-- A concrete external context: program-change parameters default to
`Discrete` interpolation (as in ardour's `EventTypeMap`), everything
else to `Linear`; three known symbols; simple enum parsers. -/
def etmF : ETM :=
  { default_interpolation_of := fun p =>
      if p.ptype = AutomationType.midiPgmChange then InterpolationStyle.Discrete
      else InterpolationStyle.Linear
    from_symbol := fun sym =>
      if sym = "sysex" then pSys else if sym = "pgm" then pPgm else pCC
    parse_interpolation := fun v =>
      if v = "Discrete" then some InterpolationStyle.Discrete
      else if v = "Linear" then some InterpolationStyle.Linear else none
    parse_auto_state := fun v =>
      if v = "Off" then some AutoState.Off
      else if v = "Write" then some AutoState.Write else none }

/-- A channel filter that rejects every event. -/
def rejectAll : ChannelFilter := fun bs => (true, bs)

/-- A channel filter that rejects note-on events on channel 0 and
appends a byte to everything else (an observable mutation). -/
def f0 : ChannelFilter := fun bs => (decide (bs.headD 0 = 144), bs ++ [1])

/-- A freshly constructed cursor. -/
def c0 : Cursor := { last_read_end := 0, iter_valid := false, iter := 0, active_notes := [] }

/-- A small sorted model: note-on, controller, sysex, note-off. -/
def model0 : List MEvent :=
  [ { time := 0, etype := 1, buffer := [144, 60, 100] },
    { time := 1, etype := 2, buffer := [176, 7, 10] },
    { time := 2, etype := 3, buffer := [240, 1] },
    { time := 5, etype := 4, buffer := [128, 60, 0] } ]

/-- A setter-only operation sequence. -/
def metaOps0 : List MetaOp :=
  [MetaOp.setInterp pPgm InterpolationStyle.Linear, MetaOp.setAuto pCC AutoState.Off]

/-- An empty interpolation override map. -/
def si0 : InterpMap := fun _ => none

/-- An empty automation-state override map. -/
def sa0 : AutoMap := fun _ => none

/-- A pristine clone target. -/
def tgt0 : Target := { natural_position := none, interp := si0, auto := sa0, acts := [] }

/-- A well-formed child list for the deserialization witnesses. -/
def cs0 : List XChild :=
  [ { kind := ChildKind.interpolationStyle, parameter := some "cc", value := some "Discrete" },
    { kind := ChildKind.automationState, parameter := some "cc", value := some "" } ]

/-! ## Helper lemmas: metadata store -/

/-- After `set_interpolation_of (p, s)` the effective value of `p` is `s`. -/
theorem interpolation_of_set (etm : ETM) (m : InterpMap) (p : Parameter)
    (s : InterpolationStyle) :
    interpolation_of etm (set_interpolation_of etm m p s).1 p = s := by
  simp only [set_interpolation_of]
  split
  · next h => exact h
  · split
    · next h => simpa [interpolation_of, PMap.erase] using h
    · simp [interpolation_of, PMap.store]

/-- After `set_automation_state_of (p, s)` the effective value of `p` is `s`. -/
theorem automation_state_of_set (a : AutoMap) (p : Parameter) (s : AutoState) :
    automation_state_of (set_automation_state_of a p s).1 p = s := by
  simp only [set_automation_state_of]
  split
  · next h => exact h
  · split
    · next h => simp [automation_state_of, PMap.erase, h]
    · simp [automation_state_of, PMap.store]

/-- `set_interpolation_of` on the current effective value is a no-op. -/
theorem set_interpolation_of_noop (etm : ETM) (m : InterpMap) (p : Parameter)
    (s : InterpolationStyle) (h : interpolation_of etm m p = s) :
    set_interpolation_of etm m p s = (m, none) := by
  simp [set_interpolation_of, h]

/-- `set_automation_state_of` on the current effective value is a no-op. -/
theorem set_automation_state_of_noop (a : AutoMap) (p : Parameter) (s : AutoState)
    (h : automation_state_of a p = s) :
    set_automation_state_of a p s = (a, none) := by
  simp [set_automation_state_of, h]

/-- `set_interpolation_of` preserves the lazy-default invariant. -/
theorem set_interpolation_of_inv (etm : ETM) (m : InterpMap) (p : Parameter)
    (s : InterpolationStyle) (h : interp_inv etm m) :
    interp_inv etm (set_interpolation_of etm m p s).1 := by
  intro q
  simp only [set_interpolation_of]
  split
  · exact h q
  · split
    · next h2 =>
      simp only [PMap.erase]
      by_cases hq : q = p
      · simp [hq]
      · simpa [hq] using h q
    · next h1 h2 =>
      simp only [PMap.store]
      by_cases hq : q = p
      · subst hq
        simpa using fun he => h2 he.symm
      · simpa [hq] using h q

/-- `set_automation_state_of` preserves the lazy-default invariant. -/
theorem set_automation_state_of_inv (a : AutoMap) (p : Parameter) (s : AutoState)
    (h : auto_inv a) :
    auto_inv (set_automation_state_of a p s).1 := by
  intro q
  simp only [set_automation_state_of]
  split
  · exact h q
  · split
    · next h2 =>
      simp only [PMap.erase]
      by_cases hq : q = p
      · simp [hq]
      · simpa [hq] using h q
    · next h1 h2 =>
      simp only [PMap.store]
      by_cases hq : q = p
      · subst hq
        simpa using fun he => h2 he
      · simpa [hq] using h q

/-- One metadata operation preserves the automation-state invariant. -/
theorem metaStep_auto_inv (etm : ETM) (st : MetaState) (op : MetaOp)
    (h : auto_inv st.auto) : auto_inv (metaStep etm st op).auto := by
  cases op with
  | setInterp p s => exact h
  | setAuto p s => exact set_automation_state_of_inv st.auto p s h
  | writeCompleted ts => exact h

/-- A setter operation preserves the interpolation invariant. -/
theorem metaStep_interp_inv (etm : ETM) (st : MetaState) (op : MetaOp)
    (hop : op.isSetter = true) (h : interp_inv etm st.interp) :
    interp_inv etm (metaStep etm st op).interp := by
  cases op with
  | setInterp p s => exact set_interpolation_of_inv etm st.interp p s h
  | setAuto p s => exact h
  | writeCompleted ts => simp [MetaOp.isSetter] at hop

/-- Folding metadata operations preserves the automation invariant. -/
theorem foldl_auto_inv (etm : ETM) (ops : List MetaOp) :
    ∀ st : MetaState, auto_inv st.auto →
      auto_inv ((ops.foldl (metaStep etm) st).auto) := by
  induction ops with
  | nil => exact fun st h => h
  | cons op ops ih =>
    intro st h
    exact ih _ (metaStep_auto_inv etm st op h)

/-- Folding setter operations preserves the interpolation invariant. -/
theorem foldl_interp_inv (etm : ETM) (ops : List MetaOp) :
    ∀ st : MetaState, (∀ op ∈ ops, op.isSetter = true) → interp_inv etm st.interp →
      interp_inv etm ((ops.foldl (metaStep etm) st).interp) := by
  induction ops with
  | nil => exact fun st _ h => h
  | cons op ops ih =>
    intro st hops h
    exact ih _ (fun o ho => hops o (List.mem_cons_of_mem op ho))
      (metaStep_interp_inv etm st op (hops op (List.mem_cons_self op ops)) h)

/-! ## Claims about the parameter metadata store -/

/-- Claim C3 (amended): under every sequence of the two public setters
the interpolation-style override map never stores an entry equal to the
computed per-parameter-type default, and the automation-state map never
stores `Play` under any sequence of setters and write-completed
finalizations; absent keys fall back to the per-type default (`Play`
for automation state) on lookup.  The write-completed finalization is
excluded from the interpolation part: it inserts `Discrete` overrides
unconditionally (see the counterexample). -/
theorem meta_maps_lazy_default (etm : ETM) (ops : List MetaOp) :
    auto_inv ((runMeta etm ops).auto)
    ∧ ((∀ op ∈ ops, op.isSetter = true) → interp_inv etm ((runMeta etm ops).interp))
    ∧ (∀ m : InterpMap, ∀ p, m p = none →
        interpolation_of etm m p = etm.default_interpolation_of p)
    ∧ (∀ a : AutoMap, ∀ p, a p = none → automation_state_of a p = AutoState.Play) :=
  ⟨foldl_auto_inv etm ops initMeta (fun _ => by simp [initMeta]),
   fun hops => foldl_interp_inv etm ops initMeta hops (fun _ => by simp [initMeta]),
   fun m p h => by simp [interpolation_of, h],
   fun a p h => by simp [automation_state_of, h]⟩

/-- Witness for C3's amended theorem at a concrete setter sequence. -/
theorem meta_maps_lazy_default_witness :
    (runMeta etmF metaOps0).auto pPgm ≠ some AutoState.Play
    ∧ (runMeta etmF metaOps0).interp pPgm
        ≠ some (etmF.default_interpolation_of pPgm) :=
  ⟨(meta_maps_lazy_default etmF metaOps0).1 pPgm,
   (meta_maps_lazy_default etmF metaOps0).2.1 (by decide) pPgm⟩

/-- Counterexample to claim C3 as stated: after a write-completed
finalization that touched a program-change control (whose type default
is `Discrete`), the interpolation override map stores an entry equal to
the computed default. -/
theorem meta_maps_lazy_default_cex :
    (runMeta etmF [MetaOp.writeCompleted [pPgm]]).interp pPgm
      = some (etmF.default_interpolation_of pPgm) := by decide

/-- Claim C7: setting a parameter's interpolation style or automation
state to its current effective value leaves the map unchanged and
emits no notification, and a second call with the same value is a
no-op after the first. -/
theorem setter_noop_idempotent (etm : ETM) (m : InterpMap) (a : AutoMap)
    (p : Parameter) (v : InterpolationStyle) (w : AutoState) :
    (interpolation_of etm m p = v → set_interpolation_of etm m p v = (m, none))
    ∧ (automation_state_of a p = w → set_automation_state_of a p w = (a, none))
    ∧ set_interpolation_of etm (set_interpolation_of etm m p v).1 p v
        = ((set_interpolation_of etm m p v).1, none)
    ∧ set_automation_state_of (set_automation_state_of a p w).1 p w
        = ((set_automation_state_of a p w).1, none) :=
  ⟨set_interpolation_of_noop etm m p v,
   set_automation_state_of_noop a p w,
   set_interpolation_of_noop etm _ p v (interpolation_of_set etm m p v),
   set_automation_state_of_noop _ p w (automation_state_of_set a p w)⟩

/-- Witness for C7 at a concrete no-op call. -/
theorem setter_noop_idempotent_witness :
    set_interpolation_of etmF si0 pCC InterpolationStyle.Linear = (si0, none)
    ∧ set_automation_state_of sa0 pCC AutoState.Play = (sa0, none) :=
  ⟨(setter_noop_idempotent etmF si0 sa0 pCC InterpolationStyle.Linear AutoState.Play).1 rfl,
   (setter_noop_idempotent etmF si0 sa0 pCC InterpolationStyle.Linear AutoState.Play).2.1 rfl⟩

/-! ## Claims about the write path -/

/-- Claim C1 (amended): a streamed `midi_write` of a bounded count
increments `_capture_length` by the requested count `cnt` (not by the
count the storage backend reports back, which is what the call
returns); the unbounded sentinel leaves capture length untouched and
triggers invalidation instead. -/
theorem midi_write_capture_length (w : Nat → Nat) (cap cnt : Nat) :
    (midi_write w cap cnt).ret = w cnt
    ∧ (midi_write w cap cnt).capture_length
        = (if cnt = timecnt_max then cap else cap + cnt)
    ∧ ((midi_write w cap cnt).invalidated = true ↔ cnt = timecnt_max) := by
  refine ⟨?_, ?_, ?_⟩ <;> simp only [midi_write] <;> split <;> simp_all

/-- Witness for C1's amended theorem at a concrete bounded write. -/
theorem midi_write_capture_length_witness :
    (midi_write (fun n => n) 3 4).ret = (fun n : Nat => n) 4
    ∧ (midi_write (fun n => n) 3 4).capture_length
        = (if 4 = timecnt_max then 3 else 3 + 4)
    ∧ ((midi_write (fun n => n) 3 4).invalidated = true ↔ 4 = timecnt_max) :=
  midi_write_capture_length (fun n => n) 3 4

/-- Counterexample to claim C1 as stated: with a backend that reports 5
samples transferred for a requested count of 7, capture length grows by
7 (the requested count), not by the 5 the call returns. -/
theorem midi_write_capture_length_cex :
    (midi_write (fun _ => 5) 0 7).ret = 5
    ∧ (midi_write (fun _ => 5) 0 7).capture_length = 7
    ∧ ¬ (midi_write (fun _ => 5) 0 7).capture_length
          = 0 + (midi_write (fun _ => 5) 0 7).ret := by decide

/-! ## Helper lemmas: read path -/

/-- The event-copy loop of `midi_read`, on a time-sorted event list,
emits exactly the per-event emission decision of every event inside
the session window `[lo, hi)`. -/
theorem read_loop_filter (ts : Nat → Nat) (lr : Option (Nat → Nat))
    (f : Option ChannelFilter) (ss lo hi : Nat) (evs : List MEvent) :
    ∀ i : Nat, List.Pairwise (fun a b : MEvent => a.time ≤ b.time) evs →
      (read_loop ts lr f ss lo hi evs i).2
        = ((evs.filter fun ev => decide (lo ≤ ss + ev.time) && decide (ss + ev.time < hi)).filterMap
            (emitted_write ts lr f ss)) := by
  induction evs with
  | nil => intro i _; simp [read_loop]
  | cons ev rest ih =>
    intro i h
    have h1 : ∀ b ∈ rest, ev.time ≤ b.time := (List.pairwise_cons.mp h).1
    have h2 := (List.pairwise_cons.mp h).2
    by_cases hlo : ss + ev.time < lo
    · have hfilt : (decide (lo ≤ ss + ev.time) && decide (ss + ev.time < hi)) = false := by
        simp only [Bool.and_eq_false_iff, decide_eq_false_iff_not]
        left; omega
      simp [read_loop, hlo, List.filter_cons, hfilt, ih (i + 1) h2]
    · by_cases hhi : hi ≤ ss + ev.time
      · have hnil : ((ev :: rest).filter
            fun e => decide (lo ≤ ss + e.time) && decide (ss + e.time < hi)) = [] := by
          rw [List.filter_eq_nil_iff]
          intro a ha
          simp only [Bool.and_eq_true, decide_eq_true_eq, not_and]
          intro _
          rcases List.mem_cons.mp ha with rfl | hmem
          · omega
          · have := h1 a hmem
            omega
        simp [read_loop, hlo, hhi, hnil]
      · have hkeep : (decide (lo ≤ ss + ev.time) && decide (ss + ev.time < hi)) = true := by
          simp only [Bool.and_eq_true, decide_eq_true_eq]
          omega
        cases he : emit_event f ev with
        | none =>
          simp [read_loop, hlo, hhi, List.filter_cons, hkeep, List.filterMap_cons,
            emitted_write, he, ih (i + 1) h2]
        | some e2 =>
          simp [read_loop, hlo, hhi, List.filter_cons, hkeep, List.filterMap_cons,
            emitted_write, he, ih (i + 1) h2, event_time_samples]

/-- Every event strictly before the fresh-search position is strictly
before the requested start time. -/
theorem first_at_or_after_take (t : Nat) :
    ∀ evs : List MEvent, ∀ ev ∈ evs.take (first_at_or_after evs t), ev.time < t := by
  intro evs
  induction evs with
  | nil => simp [first_at_or_after]
  | cons e rest ih =>
    by_cases h : t ≤ e.time
    · simp [first_at_or_after, h]
    · intro ev hev
      rw [first_at_or_after, if_neg h, List.take_succ_cons] at hev
      rcases List.mem_cons.mp hev with rfl | hmem
      · omega
      · exact ih ev hmem

/-- Skipping the pre-window prefix found by the fresh search does not
change the set of in-window events. -/
theorem filter_window_drop (start cnt : Nat) (model : List MEvent) :
    ((model.drop (first_at_or_after model start)).filter (in_window start cnt))
      = model.filter (in_window start cnt) := by
  conv_rhs => rw [← List.take_append_drop (first_at_or_after model start) model]
  rw [List.filter_append]
  have hnil : ((model.take (first_at_or_after model start)).filter (in_window start cnt)) = [] := by
    rw [List.filter_eq_nil_iff]
    intro a ha
    have := first_at_or_after_take start model a ha
    simp only [in_window, Bool.and_eq_true, decide_eq_true_eq, not_and]
    omega
  rw [hnil, List.nil_append]

/-- The session-window predicate of the read loop coincides with the
source-relative window predicate. -/
theorem window_pred_eq (ss start cnt : Nat) :
    (fun ev : MEvent => decide (ss + start ≤ ss + ev.time) && decide (ss + ev.time < ss + start + cnt))
      = in_window start cnt := by
  funext ev
  simp only [in_window]
  rw [decide_eq_decide.mpr (show ss + start ≤ ss + ev.time ↔ start ≤ ev.time by omega),
    decide_eq_decide.mpr (show ss + ev.time < ss + start + cnt ↔ ev.time < start + cnt by omega)]

/-! ## Claims about the read path -/

set_option maxRecDepth 8192 in
/-- Claim C2 (amended): on a fresh time-sorted read with a channel
filter present, `midi_read` writes exactly, for each event in the
requested window, the outcome of the per-event decision: a channel
event (status byte between 0x80 and 0xE0 inclusive) is cloned, mutated
by the filter and written only if the filter does not reject it, and
every other event is written unmodified.  The code's channel test is
not "high nibble in [0x8, 0xE]": it accepts high nibbles 0x8-0xD on
every channel but of the 0xE (pitch-bend) statuses only 0xE0 itself,
so pitch bend on channels 1-15 bypasses the filter. -/
theorem midi_read_channel_filter (ts : Nat → Nat) (lr : Option (Nat → Nat))
    (f : ChannelFilter) (model : List MEvent) (ss start cnt : Nat) (c : Cursor)
    (hsort : List.Pairwise (fun a b : MEvent => a.time ≤ b.time) model)
    (hfresh : c.iter_valid = false) :
    ((midi_read ts lr (some f) model ss start cnt c).written
        = (model.filter (in_window start cnt)).filterMap (emitted_write ts lr (some f) ss))
    ∧ (∀ ev : MEvent, emit_event (some f) ev
        = (if is_channel_event (ev.buffer.headD 0)
           then (if (f ev.buffer).1 then none else some { ev with buffer := (f ev.buffer).2 })
           else some ev))
    ∧ (∀ s : Nat, s < 256 →
        (is_channel_event s = true ↔ ((8 ≤ s / 16 ∧ s / 16 ≤ 13) ∨ s = 224))) := by
  refine ⟨?_, fun ev => rfl, by decide⟩
  have hdrop : List.Pairwise (fun a b : MEvent => a.time ≤ b.time)
      (model.drop (first_at_or_after model start)) :=
    List.Pairwise.sublist (List.drop_sublist _ _) hsort
  simp only [midi_read, hfresh, Bool.not_false, Bool.or_true, if_true]
  rw [read_loop_filter ts lr (some f) ss (ss + start) (ss + start + cnt) _ _ hdrop,
    window_pred_eq ss start cnt, filter_window_drop]

/-- Witness for C2's amended theorem on a concrete model and filter. -/
theorem midi_read_channel_filter_witness :
    (midi_read (fun n => n) none (some f0) model0 0 0 4 c0).written
      = (model0.filter (in_window 0 4)).filterMap (emitted_write (fun n => n) none (some f0) 0) :=
  (midi_read_channel_filter (fun n => n) none f0 model0 0 0 4 c0 (by decide) rfl).1

/-- Counterexample to claim C2 as stated: a pitch-bend event on channel
5 (status 0xE5, high nibble 0xE, inside the claimed [0x8, 0xE] range)
is written unmodified even though the present filter rejects every
event; the code treats it as a non-channel event. -/
theorem midi_read_channel_filter_cex :
    (midi_read (fun n => n) none (some rejectAll)
        [{ time := 1, etype := 5, buffer := [229, 10, 20] }] 0 0 4 c0).written
      = [{ time_samples := 1, etype := 5, buffer := [229, 10, 20] }]
    ∧ 229 / 16 = 14
    ∧ (rejectAll [229, 10, 20]).1 = true := by decide

/-- Claim C6 (amended): a modeled read resumes the cached iterator
exactly when the cursor's last-read-end is nonzero, the requested start
equals it, and the cached iterator is valid; in every other case it
performs a fresh search for the first event at or after `start` and
resets the active-note tracking; in both cases the cursor's
last-read-end becomes `start + cnt`.  The claim omitted the nonzero
condition on the stored last-read-end. -/
theorem midi_read_cursor_linearity (ts : Nat → Nat) (lr : Option (Nat → Nat))
    (f : Option ChannelFilter) (model : List MEvent) (ss start cnt : Nat) (c : Cursor) :
    ((midi_read ts lr f model ss start cnt c).fresh_search = false
       ↔ (c.last_read_end ≠ 0 ∧ start = c.last_read_end ∧ c.iter_valid = true))
    ∧ (midi_read ts lr f model ss start cnt c).cursor.last_read_end = start + cnt
    ∧ ((midi_read ts lr f model ss start cnt c).fresh_search = true →
        (midi_read ts lr f model ss start cnt c).scan_start = first_at_or_after model start
        ∧ (midi_read ts lr f model ss start cnt c).cursor.active_notes = [])
    ∧ ((midi_read ts lr f model ss start cnt c).fresh_search = false →
        (midi_read ts lr f model ss start cnt c).scan_start = c.iter
        ∧ (midi_read ts lr f model ss start cnt c).cursor.active_notes = c.active_notes) := by
  cases hv : c.iter_valid <;>
    by_cases h0 : c.last_read_end = 0 <;>
      by_cases hs : start = c.last_read_end <;>
        simp [midi_read, hv, h0, hs]

/-- Witness for C6's amended theorem at a concrete resumed read. -/
theorem midi_read_cursor_linearity_witness :
    ((midi_read (fun n => n) none none model0 0 2 3
        { last_read_end := 2, iter_valid := true, iter := 1, active_notes := [9] }).fresh_search = false
       ↔ ((2 : Nat) ≠ 0 ∧ (2 : Nat) = 2 ∧ True)) ∧
    (midi_read (fun n => n) none none model0 0 2 3
        { last_read_end := 2, iter_valid := true, iter := 1, active_notes := [9] }).cursor.last_read_end = 5 := by
  have h := midi_read_cursor_linearity (fun n => n) none none model0 0 2 3
    { last_read_end := 2, iter_valid := true, iter := 1, active_notes := [9] }
  exact ⟨by simpa using h.1, h.2.1⟩

/-- Counterexample to claim C6 as stated: a cursor whose stored
last-read-end is 0 with a valid cached iterator, read at start 0 (equal
to the stored last-read-end): the claim demands a resume, but the code
performs a fresh search because of its additional nonzero test. -/
theorem midi_read_cursor_linearity_cex :
    (({ last_read_end := 0, iter_valid := true, iter := 2, active_notes := [60] } : Cursor).last_read_end = 0)
    ∧ (({ last_read_end := 0, iter_valid := true, iter := 2, active_notes := [60] } : Cursor).iter_valid = true)
    ∧ (midi_read (fun n => n) none none model0 0 0 4
        { last_read_end := 0, iter_valid := true, iter := 2, active_notes := [60] }).fresh_search = true := by
  decide

/-! ## Claims about the clone path -/

/-- Claim C5: a full-range `write_to` (begin 0, end the maximum
representable beat value) writes the whole model and then destroys and
reloads the target's model; every other range writes only the section
and forces a model reload without destroying it; in both cases the
target's buffered data is flushed before the reload, and the call
succeeds. -/
theorem write_to_range_semantics (si : InterpMap) (sa : AutoMap) (pos : Nat)
    (hasModel : Bool) (b e : Nat) (tgt : Target) (h : hasModel = true) :
    (write_to si sa pos hasModel b e tgt).1 = 0
    ∧ (write_to si sa pos hasModel b e tgt).2.acts
        = tgt.acts ++ [WAct.setNaturalPosition pos, WAct.copyInterpolationFrom,
                       WAct.copyAutomationStateFrom]
          ++ (if b = 0 ∧ e = beats_max
              then [WAct.writeModel, WAct.flushMidi, WAct.destroyModel, WAct.loadModel,
                    WAct.preventDeletion]
              else [WAct.writeSectionTo b e, WAct.flushMidi, WAct.loadModelForce,
                    WAct.preventDeletion]) := by
  subst h
  by_cases hbe : b = 0 ∧ e = beats_max
  · have hbe2 : ¬ (b ≠ 0 ∨ e ≠ beats_max) := by
      simp only [not_or, not_not]
      exact hbe
    simp [write_to, hbe, hbe2]
  · have hbe2 : b ≠ 0 ∨ e ≠ beats_max := by
      rcases Decidable.not_and_iff_or_not.mp hbe with h1 | h2
      · exact Or.inl h1
      · exact Or.inr h2
    simp [write_to, hbe, hbe2]

/-- Witness for C5 at a concrete full-range clone. -/
theorem write_to_range_semantics_witness :
    (write_to si0 sa0 7 true 0 beats_max tgt0).1 = 0
    ∧ (write_to si0 sa0 7 true 0 beats_max tgt0).2.acts
        = tgt0.acts ++ [WAct.setNaturalPosition 7, WAct.copyInterpolationFrom,
                        WAct.copyAutomationStateFrom]
          ++ (if (0 : Nat) = 0 ∧ beats_max = beats_max
              then [WAct.writeModel, WAct.flushMidi, WAct.destroyModel, WAct.loadModel,
                    WAct.preventDeletion]
              else [WAct.writeSectionTo 0 beats_max, WAct.flushMidi, WAct.loadModelForce,
                    WAct.preventDeletion]) :=
  write_to_range_semantics si0 sa0 7 true 0 beats_max tgt0 rfl

/-- Claim C10: `write_to` on a source with no model attached returns a
negative status, but only after it has already set the target's natural
position and replaced both of the target's override maps with copies of
this source's maps; nothing else (in particular no flush) has run. -/
theorem write_to_no_model_mutates (si : InterpMap) (sa : AutoMap) (pos b e : Nat)
    (tgt : Target) :
    (write_to si sa pos false b e tgt).1 = -1
    ∧ (write_to si sa pos false b e tgt).2.natural_position = some pos
    ∧ (write_to si sa pos false b e tgt).2.interp = si
    ∧ (write_to si sa pos false b e tgt).2.auto = sa
    ∧ (write_to si sa pos false b e tgt).2.acts
        = tgt.acts ++ [WAct.setNaturalPosition pos, WAct.copyInterpolationFrom,
                       WAct.copyAutomationStateFrom] := by
  simp [write_to]

/-- Witness for C10 at a concrete model-less clone attempt. -/
theorem write_to_no_model_mutates_witness :
    (write_to si0 sa0 9 false 1 2 tgt0).1 = -1
    ∧ (write_to si0 sa0 9 false 1 2 tgt0).2.natural_position = some 9
    ∧ (write_to si0 sa0 9 false 1 2 tgt0).2.interp = si0
    ∧ (write_to si0 sa0 9 false 1 2 tgt0).2.auto = sa0
    ∧ (write_to si0 sa0 9 false 1 2 tgt0).2.acts
        = tgt0.acts ++ [WAct.setNaturalPosition 9, WAct.copyInterpolationFrom,
                        WAct.copyAutomationStateFrom] :=
  write_to_no_model_mutates si0 sa0 9 1 2 tgt0

/-! ## Claims about deserialization -/

/-- Claim C4 (amended): during deserialization an `InterpolationStyle`
child whose parameter resolves to a system-exclusive or unrecognized
(non-automatable) type is logged and skipped without being applied, and
the load continues with the remaining children; `AutomationState`
children however undergo no such type check and are applied whatever
the parameter type resolves to. -/
theorem set_state_skip_non_automatable (etm : ETM) (c : XChild) (rest : List XChild)
    (st : MetaState) (sym : String)
    (hk : c.kind = ChildKind.interpolationStyle)
    (hp : c.parameter = some sym)
    (hna : automatable_midi_type (etm.from_symbol sym).ptype = false) :
    set_state_children etm (c :: rest) st = set_state_children etm rest st
    ∧ (∀ (sym2 v : String) (s : AutoState), v ≠ "" → etm.parse_auto_state v = some s →
        set_state_children etm
            ({ kind := ChildKind.automationState, parameter := some sym2, value := some v } :: rest) st
          = set_state_children etm rest
              { st with auto := (set_automation_state_of st.auto (etm.from_symbol sym2) s).1 }) := by
  obtain ⟨ck, cp, cv⟩ := c
  simp only [XChild.kind] at hk
  simp only [XChild.parameter] at hp
  subst hk
  subst hp
  constructor
  · simp [set_state_children, hna]
  · intro sym2 v s hv hs
    simp [set_state_children, hv, hs]

/-- Witness for C4's amended theorem on concrete children. -/
theorem set_state_skip_non_automatable_witness :
    set_state_children etmF
        ({ kind := ChildKind.interpolationStyle, parameter := some "sysex", value := none } :: []) initMeta
      = set_state_children etmF [] initMeta
    ∧ set_state_children etmF
        ({ kind := ChildKind.automationState, parameter := some "x", value := some "Write" } :: []) initMeta
      = set_state_children etmF []
          { initMeta with auto :=
              (set_automation_state_of initMeta.auto (etmF.from_symbol "x") AutoState.Write).1 } :=
  ⟨(set_state_skip_non_automatable etmF
      { kind := ChildKind.interpolationStyle, parameter := some "sysex", value := none }
      [] initMeta "sysex" rfl rfl (by decide)).1,
   (set_state_skip_non_automatable etmF
      { kind := ChildKind.interpolationStyle, parameter := some "sysex", value := none }
      [] initMeta "sysex" rfl rfl (by decide)).2 "x" "Write" AutoState.Write (by decide) (by decide)⟩

/-- Counterexample to claim C4 as stated: an `AutomationState` child
whose parameter resolves to the system-exclusive (non-automatable) type
is not skipped: it is applied to the automation-state override map and
the load reports success. -/
theorem set_state_skip_non_automatable_cex :
    (set_state_children etmF
        [{ kind := ChildKind.automationState, parameter := some "sysex", value := some "Off" }]
        initMeta).1 = 0
    ∧ (set_state_children etmF
        [{ kind := ChildKind.automationState, parameter := some "sysex", value := some "Off" }]
        initMeta).2.auto pSys = some AutoState.Off
    ∧ initMeta.auto pSys = none := by decide

/-- Claim C8: during deserialization a child carrying an empty style
string toggles (through the setter) the parameter's interpolation to
the opposite of its computed type default (Discrete becomes Linear and
vice versa), an empty state string sets the parameter's automation
state to Off, and a non-empty value is parsed and applied as the
explicit enumerated value instead. -/
theorem set_state_legacy_empty (etm : ETM) (rest : List XChild) (st : MetaState)
    (sym : String)
    (hauto : automatable_midi_type (etm.from_symbol sym).ptype = true) :
    (set_state_children etm
        ({ kind := ChildKind.interpolationStyle, parameter := some sym, value := some "" } :: rest) st
      = set_state_children etm rest
          { st with interp :=
              (set_interpolation_of etm st.interp (etm.from_symbol sym)
                (toggled etm (etm.from_symbol sym))).1 })
    ∧ interpolation_of etm
        ((set_interpolation_of etm st.interp (etm.from_symbol sym)
          (toggled etm (etm.from_symbol sym))).1) (etm.from_symbol sym)
        = toggled etm (etm.from_symbol sym)
    ∧ (etm.default_interpolation_of (etm.from_symbol sym) = InterpolationStyle.Discrete →
        toggled etm (etm.from_symbol sym) = InterpolationStyle.Linear)
    ∧ (etm.default_interpolation_of (etm.from_symbol sym) = InterpolationStyle.Linear →
        toggled etm (etm.from_symbol sym) = InterpolationStyle.Discrete)
    ∧ (set_state_children etm
        ({ kind := ChildKind.automationState, parameter := some sym, value := some "" } :: rest) st
      = set_state_children etm rest
          { st with auto := (set_automation_state_of st.auto (etm.from_symbol sym) AutoState.Off).1 })
    ∧ automation_state_of
        ((set_automation_state_of st.auto (etm.from_symbol sym) AutoState.Off).1)
        (etm.from_symbol sym) = AutoState.Off
    ∧ (∀ v : String, ∀ s : InterpolationStyle, v ≠ "" → etm.parse_interpolation v = some s →
        set_state_children etm
            ({ kind := ChildKind.interpolationStyle, parameter := some sym, value := some v } :: rest) st
          = set_state_children etm rest
              { st with interp := (set_interpolation_of etm st.interp (etm.from_symbol sym) s).1 })
    ∧ (∀ v : String, ∀ s : AutoState, v ≠ "" → etm.parse_auto_state v = some s →
        set_state_children etm
            ({ kind := ChildKind.automationState, parameter := some sym, value := some v } :: rest) st
          = set_state_children etm rest
              { st with auto := (set_automation_state_of st.auto (etm.from_symbol sym) s).1 }) := by
  refine ⟨?_, interpolation_of_set etm st.interp _ _, ?_, ?_, ?_,
    automation_state_of_set st.auto _ _, ?_, ?_⟩
  · simp [set_state_children, hauto]
  · intro h; simp [toggled, h]
  · intro h; simp [toggled, h]
  · simp [set_state_children]
  · intro v s hv hp
    simp [set_state_children, hauto, hv, hp]
  · intro v s hv hp
    simp [set_state_children, hv, hp]

/-- Witness for C8 at a concrete parameter with `Linear` default. -/
theorem set_state_legacy_empty_witness :
    interpolation_of etmF
        ((set_interpolation_of etmF initMeta.interp (etmF.from_symbol "cc")
          (toggled etmF (etmF.from_symbol "cc"))).1) (etmF.from_symbol "cc")
        = toggled etmF (etmF.from_symbol "cc")
    ∧ automation_state_of
        ((set_automation_state_of initMeta.auto (etmF.from_symbol "cc") AutoState.Off).1)
        (etmF.from_symbol "cc") = AutoState.Off :=
  ⟨(set_state_legacy_empty etmF [] initMeta "cc" (by decide)).2.1,
   (set_state_legacy_empty etmF [] initMeta "cc" (by decide)).2.2.2.2.2.1⟩

/-- Claim C9 (amended): `set_state` aborts with -1 exactly when some
child has a missing required field — its parameter symbol, or its
style/state value when no value is readable — except that an
`InterpolationStyle` child skipped for a non-automatable parameter type
is never checked for its style value; when no such child exists the
call returns 0, and the status is never anything but 0 or -1. -/
theorem set_state_missing_required (etm : ETM) (cs : List XChild) (st : MetaState) :
    ((set_state_children etm cs st).1 = 0
       ↔ ∀ c ∈ cs, amended_missing_required etm c = false)
    ∧ ((set_state_children etm cs st).1 = 0 ∨ (set_state_children etm cs st).1 = -1) := by
  induction cs generalizing st with
  | nil => simp [set_state_children]
  | cons c rest ih =>
    obtain ⟨ck, cp, cv⟩ := c
    cases ck with
    | otherChild =>
      simp only [set_state_children]
      refine ⟨?_, (ih st).2⟩
      rw [(ih st).1]
      simp [amended_missing_required]
    | interpolationStyle =>
      cases cp with
      | none => simp [set_state_children, amended_missing_required]
      | some sym =>
        by_cases hna : automatable_midi_type (etm.from_symbol sym).ptype = true
        · cases cv with
          | none => simp [set_state_children, amended_missing_required, hna]
          | some v =>
            by_cases hv : v = ""
            · subst hv
              simp only [set_state_children, hna, if_true, if_pos rfl]
              refine ⟨?_, (ih _).2⟩
              rw [(ih _).1]
              simp [amended_missing_required, hna]
            · cases hp : etm.parse_interpolation v with
              | none => simp [set_state_children, amended_missing_required, hna, hv, hp]
              | some s =>
                simp only [set_state_children, hna, if_true, hv, if_neg hv, hp, if_false]
                refine ⟨?_, (ih _).2⟩
                rw [(ih _).1]
                simp [amended_missing_required, hna, hv, hp]
        · have hna2 : automatable_midi_type (etm.from_symbol sym).ptype = false :=
            Bool.not_eq_true _ ▸ Bool.of_not_eq_true hna
          simp only [set_state_children, hna2, Bool.false_eq_true, if_false]
          refine ⟨?_, (ih st).2⟩
          rw [(ih st).1]
          simp [amended_missing_required, hna2]
    | automationState =>
      cases cp with
      | none => simp [set_state_children, amended_missing_required]
      | some sym =>
        cases cv with
        | none => simp [set_state_children, amended_missing_required]
        | some v =>
          by_cases hv : v = ""
          · subst hv
            simp only [set_state_children, if_pos rfl, if_true]
            refine ⟨?_, (ih _).2⟩
            rw [(ih _).1]
            simp [amended_missing_required]
          · cases hp : etm.parse_auto_state v with
            | none => simp [set_state_children, amended_missing_required, hv, hp]
            | some s =>
              simp only [set_state_children, hv, if_neg hv, hp, if_false]
              refine ⟨?_, (ih _).2⟩
              rw [(ih _).1]
              simp [amended_missing_required, hv, hp]

/-- Witness for C9's amended theorem on a concrete child list. -/
theorem set_state_missing_required_witness :
    (set_state_children etmF cs0 initMeta).1 = 0
    ∨ (set_state_children etmF cs0 initMeta).1 = -1 :=
  (set_state_missing_required etmF cs0 initMeta).2

/-- Counterexample to claim C9 as stated: an `InterpolationStyle` child
with a system-exclusive parameter and no readable style value (a
missing required field in the claim's sense) does not abort: the child
is skipped by the non-automatable filter before the style check and the
call returns 0. -/
theorem set_state_missing_required_cex :
    claim_missing_required etmF
        { kind := ChildKind.interpolationStyle, parameter := some "sysex", value := none } = true
    ∧ set_state_children etmF
        [{ kind := ChildKind.interpolationStyle, parameter := some "sysex", value := none }]
        initMeta = (0, initMeta) := by
  constructor
  · decide
  · rfl

end ArdourMidi
